import Mathlib

namespace Lighthouse

/-!
Shallow embedding of `src/lighthouse-core/runner.js` (class `Runner`).

The coordinator `Runner.run(driver, opts)` builds a promise chain:
URL normalization and advisory warnings, mode classification
(passes+audits / artifacts+audits / auditResults passthrough), optional
artifact/asset persistence, concurrent audit fan-out via `Promise.all`,
and an optional aggregation phase producing the final report shape.

External collaborators (gathering, persistence, aggregation) are opaque
capabilities; we model them as fields of a `World` record of functions
that either succeed or fail with a string error.  Promise rejection and
synchronous throwing are both modelled with `Except`.  The event trace
of collaborator invocations and log warnings is recorded explicitly so
that claims such as "the gathering collaborator is never invoked" can be
stated about it.  JS mutation of `opts` (the code assigns
`opts.initialUrl`, `opts.url` and `opts.driver`) is modelled by
returning the final value of `opts` alongside the result.
-/

/-- A unit of the gathering plan (opaque to the coordinator). -/
abbrev Pass := String

/-- The page-session handle; opaque, only forwarded to gathering. -/
abbrev Driver := String

/-- Gathered artifacts: an opaque mapping from artifact name to value. -/
abbrev Artifacts := List (String × String)

/-- An aggregation specification, opaque to the coordinator. -/
abbrev AggregationSpec := String

/-- An aggregation result, opaque to the coordinator. -/
abbrev AggregationResult := String

/-- An audit result; the coordinator only reads its `name` field
(`formatted[audit.name] = audit` in the reduce). -/
structure AuditResult where
  name : String
  value : String
deriving DecidableEq, Repr

/-- The `meta` object of an audit implementation; the runner reads
`audit.meta.description` for the status log line. -/
structure AuditMeta where
  description : String
deriving DecidableEq, Repr

/-- An audit descriptor as the runner consumes it: `audit.meta.description`
for logging and the function `audit.audit(artifacts)`, which may fail
(a rejected promise or a synchronous throw). -/
structure AuditDescriptor where
  meta : AuditMeta
  audit : Artifacts → Except String AuditResult

/-- The configuration object.  In the JS source the mode classification
tests truthiness of the optional fields `passes`, `audits`, `artifacts`,
`auditResults` and `aggregations`; presence is modelled with `Option`. -/
structure Config where
  passes : Option (List Pass) := none
  audits : Option (List AuditDescriptor) := none
  artifacts : Option Artifacts := none
  auditResults : Option (List AuditResult) := none
  aggregations : Option (List AggregationSpec) := none

/-- The recognized flag options (`opts.flags.saveArtifacts`,
`opts.flags.saveAssets`); an absent property is falsy, hence `Bool`
with default `false`. -/
structure Flags where
  saveArtifacts : Bool := false
  saveAssets : Bool := false
deriving DecidableEq, Repr

/-- The options object passed to `Runner.run`.  `flags` is an `Option`
because the code dereferences `opts.flags.saveArtifacts` without a
guard: when the caller supplies no `flags` object that read throws a
`TypeError`.  The fields `initialUrl` and `driver` start out absent and
are assigned by `run` itself (JS mutation, modelled functionally). -/
structure Opts where
  url : String
  config : Config
  flags : Option Flags := none
  initialUrl : Option String := none
  driver : Option Driver := none

/-- Result of `url.parse`: the components the runner inspects
(`protocol` keeps its trailing colon as in Node, e.g. `"http:"`). -/
structure ParsedUrl where
  protocol : String
  hostname : String
  path : String
deriving DecidableEq, Repr

/-- Split a character list at the first "://" occurrence, returning the
scheme characters before it and the remainder after it. -/
def splitSchemeAux : List Char → Option (List Char × List Char)
  | [] => none
  | ':' :: '/' :: '/' :: rest => some ([], rest)
  | c :: rest =>
    match splitSchemeAux rest with
    | some (scheme, tail) => some (c :: scheme, tail)
    | none => none

/-- Model of the Node `url.parse` library call on `scheme://host/path`
URLs: the scheme (with a colon appended, as Node reports it), the
hostname up to the first slash, and the remaining path (empty when the
URL has no path component). -/
def urlParse (s : String) : ParsedUrl :=
  match splitSchemeAux s.data with
  | none => { protocol := "", hostname := s, path := "" }
  | some (scheme, tail) =>
    let hostname := tail.takeWhile (fun c => c ≠ '/')
    { protocol := String.mk scheme ++ ":"
      hostname := String.mk hostname
      path := String.mk (tail.drop hostname.length) }

/-- Model of the Node `url.format` library call: re-serializes the
parsed components, adding the canonical trailing slash when the path is
empty (`url.format(url.parse("http://example.com")) =
"http://example.com/"`). -/
def urlFormat (p : ParsedUrl) : String :=
  if p.protocol = "" then p.hostname
  else p.protocol ++ "//" ++ p.hostname ++ (if p.path = "" then "/" else p.path)

/-- JS `String.prototype.includes` restricted to what the runner needs:
`parsedURL.protocol.includes("https")`. -/
def strIncludes (hay needle : String) : Bool :=
  hay.data.tails.any (fun t => needle.data.isPrefixOf t)

/-- The observable events of one run: warnings, status log lines and
each collaborator invocation with its arguments. -/
inductive Event where
  | warn (msg : String)
  | gatherCall (passes : List Pass)
  | persistArtifactsCall (a : Artifacts)
  | persistAssetsCall (a : Artifacts)
  | statusLog (msg : String)
  | auditCall (description : String) (a : Artifacts)
  | statusEndLog (msg : String)
  | aggregateCall (specs : List AggregationSpec) (results : List AuditResult)
deriving DecidableEq, Repr

/-- Failure modes of a run: the synchronously thrown configuration
`Error`, the `TypeError` from dereferencing an absent `opts.flags`, and
a collaborator rejection propagated unchanged. -/
inductive JsError where
  | configError (msg : String)
  | typeError (msg : String)
  | thrown (e : String)
deriving DecidableEq, Repr

/-- The report shape assembled when aggregations run: the `audits`
mapping is a JS object, modelled as an association list in insertion
order with last-write-wins on a repeated key. -/
structure Report where
  initialUrl : String
  url : String
  audits : List (String × AuditResult)
  aggregations : List AggregationResult
deriving DecidableEq, Repr

/-- A run resolves either to the flat audit-result list (no
aggregations configured) or to the assembled report. -/
inductive RunValue where
  | flat (results : List AuditResult)
  | report (r : Report)
deriving DecidableEq, Repr

/-- The external collaborators, each an opaque capability that either
succeeds or fails: `GatherRunner.run`, `assetSaver.saveArtifacts`,
`assetSaver.saveAssets` and `Aggregator.aggregate`. -/
structure World where
  gather : List Pass → Opts → Except String Artifacts
  saveArtifactsFn : Artifacts → Except String Unit
  saveAssetsFn : Opts → Artifacts → Except String Unit
  aggregate : List AggregationSpec → List AuditResult → Except String (List AggregationResult)

/-- The events and outcome of one (sub-)chain of the promise pipeline. -/
structure StepOut (α : Type) where
  events : List Event
  result : Except String α
deriving Repr

/-- `s.andThen f` models `promise.then(f)`: on success the continuation
runs and its events follow; on rejection the continuation is skipped
and the error propagates. -/
def StepOut.andThen {α β : Type} (s : StepOut α) (f : α → StepOut β) : StepOut β :=
  match s.result with
  | .error e => { events := s.events, result := .error e }
  | .ok a =>
    { events := s.events ++ (f a).events, result := (f a).result }

/-- The artifact-producing step: in mode A (`validPassesAndAudits`) a
single call to the gathering collaborator with the configured passes and
the (already mutated) options; in mode B the configuration's
pre-collected artifacts, with no collaborator call. -/
def artifactsStep (w : World) (config : Config) (opts : Opts) (modeA : Bool) :
    StepOut Artifacts :=
  if modeA then
    match config.passes with
    | some ps => { events := [.gatherCall ps], result := w.gather ps opts }
    | none => { events := [], result := .error "no passes" }
  else
    match config.artifacts with
    | some a => { events := [], result := .ok a }
    | none => { events := [], result := .error "no artifacts" }

/-- The `flags.saveArtifacts` step: call `assetSaver.saveArtifacts`
(a synchronous throw there rejects the chain) and pass the same
artifacts forward, discarding the call's return value. -/
def saveArtifactsStep (w : World) (flags : Flags) (a : Artifacts) :
    StepOut Artifacts :=
  if flags.saveArtifacts then
    match w.saveArtifactsFn a with
    | .ok _ => { events := [.persistArtifactsCall a], result := .ok a }
    | .error e => { events := [.persistArtifactsCall a], result := .error e }
  else { events := [], result := .ok a }

/-- The `flags.saveAssets` step: call `assetSaver.saveAssets(opts,
artifacts)` and pass the same artifacts forward, discarding the call's
return value. -/
def saveAssetsStep (w : World) (flags : Flags) (opts : Opts) (a : Artifacts) :
    StepOut Artifacts :=
  if flags.saveAssets then
    match w.saveAssetsFn opts a with
    | .ok _ => { events := [.persistAssetsCall a], result := .ok a }
    | .error e => { events := [.persistAssetsCall a], result := .error e }
  else { events := [], result := .ok a }

/-- The status line logged for an audit. -/
def statusOf (a : AuditDescriptor) : String :=
  "Evaluating: " ++ a.meta.description

/-- `Promise.all` result assembly: if some task rejected, the batch
rejects with the error of the first rejecting task in completion order
(the schedule); otherwise the results are placed in task order,
independent of the schedule. -/
def firstScheduledError (tasks : List (Except String AuditResult)) (sched : List Nat) :
    Option String :=
  sched.findSome? (fun i =>
    match tasks.getD i (.ok { name := "", value := "" }) with
    | .error e => some e
    | .ok _ => none)

/-- Collect a list of task outcomes into one outcome, keeping task
order; used for the all-resolved case of `Promise.all`. -/
def collectResults : List (Except String AuditResult) → Except String (List AuditResult)
  | [] => .ok []
  | t :: ts =>
    match t with
    | .error e => .error e
    | .ok r =>
      match collectResults ts with
      | .error e => .error e
      | .ok rs => .ok (r :: rs)

/-- `Promise.all` over the audit tasks, parametrized by the completion
order `sched` (a permutation of the task indices): rejection picks the
first failure in completion order, resolution keeps task order. -/
def promiseAllAudits (tasks : List (Except String AuditResult)) (sched : List Nat) :
    Except String (List AuditResult) :=
  match firstScheduledError tasks sched with
  | some e => .error e
  | none => collectResults tasks

/-- The `statusEnd` verbose log lines: emitted at each audit's
completion (hence in schedule order) and only for audits that resolve. -/
def statusEndEvents (audits : List AuditDescriptor)
    (tasks : List (Except String AuditResult)) (sched : List Nat) : List Event :=
  sched.filterMap (fun i =>
    match tasks.getD i (.error "") with
    | .ok _ => (audits.get? i).map (fun a => Event.statusEndLog (statusOf a))
    | .error _ => none)

/-- The concurrent audit fan-out: for every configured audit, in list
order, log the status line and invoke `audit.audit(artifacts)`; then
wait for all of them (`Promise.all`).  `sched` is the completion order
of the concurrent tasks. -/
def auditsStep (audits : List AuditDescriptor) (a : Artifacts) (sched : List Nat) :
    StepOut (List AuditResult) :=
  let tasks := audits.map (fun d => d.audit a)
  { events :=
      (audits.map (fun d => [Event.statusLog (statusOf d), Event.auditCall d.meta.description a])).flatten
        ++ statusEndEvents audits tasks sched
    result := promiseAllAudits tasks sched }

/-- The `audits.reduce((formatted, audit) => { formatted[audit.name] =
audit; ... }, {})` reshaping: JS object insertion keyed by each
result's `name`, first-insertion key order, last write wins. -/
def insertAssoc (m : List (String × AuditResult)) (k : String) (v : AuditResult) :
    List (String × AuditResult) :=
  if m.any (fun p => p.1 = k) then
    m.map (fun p => if p.1 = k then (k, v) else p)
  else m ++ [(k, v)]

/-- Fold the flat audit-result list into the `audits` mapping. -/
def formatAudits (results : List AuditResult) : List (String × AuditResult) :=
  results.foldl (fun m r => insertAssoc m r.name r) []

/-- The optional aggregation phase appended to whatever chain produced
the audit results: when `config.aggregations` is present, call the
aggregation collaborator and assemble the report shape; otherwise the
chain's flat value is the run's resolved value. -/
def aggregationStep (w : World) (config : Config) (opts : Opts)
    (prev : StepOut (List AuditResult)) : List Event × Except JsError RunValue :=
  match config.aggregations with
  | none =>
    (prev.events,
      match prev.result with
      | .ok rs => .ok (.flat rs)
      | .error e => .error (.thrown e))
  | some specs =>
    match prev.result with
    | .error e => (prev.events, .error (.thrown e))
    | .ok auditResults =>
      match w.aggregate specs auditResults with
      | .error e =>
        (prev.events ++ [.aggregateCall specs auditResults], .error (.thrown e))
      | .ok aggregations =>
        (prev.events ++ [.aggregateCall specs auditResults],
          .ok (.report
            { initialUrl := opts.initialUrl.getD ""
              url := opts.url
              audits := formatAudits auditResults
              aggregations := aggregations }))

/-- The complete outcome of `Runner.run`: the final (mutated) options
object, the event trace, and the resolved value or error. -/
structure RunOutput where
  opts : Opts
  events : List Event
  result : Except JsError RunValue

/-- The warning events of the URL advisory check: two warnings when the
protocol does not include "https" or the hostname equals the literal
"http://localhost", none otherwise.  Never aborts the run. -/
def urlWarnings (parsedURL : ParsedUrl) : List Event :=
  if !(strIncludes parsedURL.protocol "https") || parsedURL.hostname = "http://localhost" then
    [.warn "The URL provided should be on HTTPS",
     .warn "Performance stats will be skewed redirecting from HTTP to HTTPS."]
  else []

/-- The mutation `run` performs on the options object before branching:
`opts.initialUrl = opts.url`, `opts.url = url.format(url.parse(opts.url))`,
and — only on the `validPassesAndAudits` path — `opts.driver = driver`. -/
def mutatedOpts (driver : Driver) (opts0 : Opts) : Opts :=
  let optsU : Opts :=
    { opts0 with initialUrl := some opts0.url, url := urlFormat (urlParse opts0.url) }
  if opts0.config.passes.isSome && opts0.config.audits.isSome
  then { optsU with driver := some driver } else optsU

/-- The promise chain of the mode A/B branch once the flags object is
available: artifact production, the two optional persistence steps, and
the concurrent audit fan-out. -/
def abChain (w : World) (driver : Driver) (opts0 : Opts) (flags : Flags)
    (sched : List Nat) : StepOut (List AuditResult) :=
  (((artifactsStep w opts0.config (mutatedOpts driver opts0)
      (opts0.config.passes.isSome && opts0.config.audits.isSome)).andThen
    (saveArtifactsStep w flags)).andThen
    (saveAssetsStep w flags (mutatedOpts driver opts0))).andThen
    (fun a => auditsStep (opts0.config.audits.getD []) a sched)

/-- Shallow embedding of `Runner.run(driver, opts)` from
`src/lighthouse-core/runner.js`.

Faithful points of the JS control flow:
* `opts.initialUrl = opts.url`, `opts.url = url.format(url.parse(opts.url))`
  and (mode A only) `opts.driver = driver` mutate the options object;
  the final `opts` is returned in the output.
* Mode classification: `validPassesAndAudits || validArtifactsAndAudits`
  first (with `validPassesAndAudits` taking priority inside), then
  `config.auditResults`, else a synchronous throw of the configuration
  error.  The throw happens before the flags reads, the audit step and
  the aggregation check.
* In the A/B branch the reads `opts.flags.saveArtifacts` /
  `opts.flags.saveAssets` happen synchronously while the chain is being
  built: with no `flags` object the first read throws a `TypeError`.
  The artifact step was already attached to an (already resolved)
  promise, so its microtask still runs — the trace keeps its events —
  but the persistence, audit and aggregation steps are never attached.
* `sched` is the completion order of the concurrent audit tasks; it
  influences only which rejection wins and the order of the
  `statusEnd` log lines. -/
def Runner.run (w : World) (driver : Driver) (opts0 : Opts) (sched : List Nat) :
    RunOutput :=
  let config := opts0.config
  let opts := mutatedOpts driver opts0
  let warnEvents := urlWarnings (urlParse opts0.url)
  let validPassesAndAudits := config.passes.isSome && config.audits.isSome
  let validArtifactsAndAudits := config.artifacts.isSome && config.audits.isSome
  if validPassesAndAudits || validArtifactsAndAudits then
    match opts.flags with
    | none =>
      { opts := opts
        events := warnEvents ++ (artifactsStep w config opts validPassesAndAudits).events
        result := .error (.typeError "Cannot read property saveArtifacts of undefined") }
    | some flags =>
      let er := aggregationStep w config opts (abChain w driver opts0 flags sched)
      { opts := opts, events := warnEvents ++ er.1, result := er.2 }
  else if config.auditResults.isSome then
    let chain : StepOut (List AuditResult) :=
      { events := [], result := .ok (config.auditResults.getD []) }
    let er := aggregationStep w config opts chain
    { opts := opts, events := warnEvents ++ er.1, result := er.2 }
  else
    { opts := opts
      events := warnEvents
      result := .error (.configError
        "The config must provide passes and audits, artifacts and audits, or auditResults") }

/-- The artifacts the audit phase receives: the gathering
collaborator's output in mode A, the configured artifacts in mode B. -/
def resolvedArtifacts (w : World) (driver : Driver) (opts0 : Opts) : Except String Artifacts :=
  (artifactsStep w opts0.config (mutatedOpts driver opts0)
    (opts0.config.passes.isSome && opts0.config.audits.isSome)).result

/-! ### Trace observations -/

/-- The passes argument of every gathering-collaborator invocation in a
trace. -/
def gatherCalls (evs : List Event) : List (List Pass) :=
  evs.filterMap (fun e => match e with | .gatherCall ps => some ps | _ => none)

/-- The (description, artifacts) argument pair of every audit-function
invocation in a trace. -/
def auditCallArgs (evs : List Event) : List (String × Artifacts) :=
  evs.filterMap (fun e => match e with | .auditCall d a => some (d, a) | _ => none)

/-- The artifacts argument of every `saveArtifacts` persistence
invocation in a trace. -/
def persistArtifactsCalls (evs : List Event) : List Artifacts :=
  evs.filterMap (fun e => match e with | .persistArtifactsCall a => some a | _ => none)

/-- The artifacts argument of every `saveAssets` persistence
invocation in a trace. -/
def persistAssetsCalls (evs : List Event) : List Artifacts :=
  evs.filterMap (fun e => match e with | .persistAssetsCall a => some a | _ => none)

/-- How many warnings a trace holds. -/
def warnCount (evs : List Event) : Nat :=
  (evs.filter (fun e => match e with | .warn _ => true | _ => false)).length

/-- Is this event an invocation of one of the four collaborators
(gathering, persistence, audit, aggregation)? -/
def Event.isCollabCall : Event → Bool
  | .gatherCall _ => true
  | .persistArtifactsCall _ => true
  | .persistAssetsCall _ => true
  | .auditCall _ _ => true
  | .aggregateCall _ _ => true
  | _ => false

/-! ### Concrete sample data for witnesses and counterexamples -/

/-- A concrete collaborator world used to instantiate the theorems. -/
def sampleWorld : World :=
  { gather := fun _ _ => .ok [("traces", "t")]
    saveArtifactsFn := fun _ => .ok ()
    saveAssetsFn := fun _ _ => .ok ()
    aggregate := fun specs _ => .ok (specs.map (fun s => s ++ " scored")) }

/-- A mode C options object (pre-computed audit results) with an
aggregation specification. -/
def modeCOpts : Opts :=
  { url := "https://example.com/"
    config :=
      { auditResults := some [{ name := "speed", value := "fast" }]
        aggregations := some ["perf"] } }

/-- A mode B options object with two audits whose results carry
distinct names. -/
def modeBOpts : Opts :=
  { url := "https://example.com/"
    config :=
      { artifacts := some [("k", "v")]
        audits := some
          [{ meta := { description := "first audit" }
             audit := fun _ => .ok { name := "alpha", value := "one" } },
           { meta := { description := "second audit" }
             audit := fun _ => .ok { name := "beta", value := "two" } }]
        aggregations := some ["perf"] }
    flags := some {} }

/-- A mode B options object with two audits whose results share the
same name. -/
def dupOpts : Opts :=
  { url := "https://example.com/"
    config :=
      { artifacts := some [("k", "v")]
        audits := some
          [{ meta := { description := "first" }
             audit := fun _ => .ok { name := "speed", value := "one" } },
           { meta := { description := "second" }
             audit := fun _ => .ok { name := "speed", value := "two" } }]
        aggregations := some ["perf"] }
    flags := some {} }

/-- A mode B options object which requests both artifact and asset
persistence. -/
def saveOpts : Opts :=
  { url := "https://example.com/"
    config :=
      { artifacts := some [("k", "v")]
        audits := some [{ meta := { description := "only" }
                          audit := fun _ => .ok { name := "n", value := "v" } }] }
    flags := some { saveArtifacts := true, saveAssets := true } }

/-- An insecure-URL mode C options object. -/
def httpOpts : Opts :=
  { url := "http://example.com"
    config := { auditResults := some [{ name := "n", value := "v" }] } }

/-- A mode B options object with no flags object at all. -/
def noFlagsOpts : Opts :=
  { url := "https://example.com/"
    config :=
      { artifacts := some [("k", "v")]
        audits := some [{ meta := { description := "only audit" }
                          audit := fun _ => .ok { name := "n", value := "v" } }] } }

/-- A mode B options object whose second audit rejects. -/
def failOpts : Opts :=
  { url := "https://example.com/"
    config :=
      { artifacts := some [("k", "v")]
        audits := some
          [{ meta := { description := "good" }
             audit := fun _ => .ok { name := "good", value := "ok" } },
           { meta := { description := "bad" }
             audit := fun _ => .error "boom" }] }
    flags := some {} }

/-- The number of entries of the report's `audits` mapping, when the
run resolved to a report (0 otherwise). -/
def reportAuditsCount (o : RunOutput) : Nat :=
  match o.result with
  | .ok (.report r) => r.audits.length
  | _ => 0

/-! ### Lemmas, claims, witnesses -/

theorem mutatedOpts_flags (d : Driver) (o : Opts) : (mutatedOpts d o).flags = o.flags := by
  unfold mutatedOpts
  split <;> rfl

theorem mutatedOpts_config (d : Driver) (o : Opts) : (mutatedOpts d o).config = o.config := by
  unfold mutatedOpts
  split <;> rfl

theorem mutatedOpts_initialUrl (d : Driver) (o : Opts) :
    (mutatedOpts d o).initialUrl = some o.url := by
  unfold mutatedOpts
  split <;> rfl

theorem mutatedOpts_url (d : Driver) (o : Opts) :
    (mutatedOpts d o).url = urlFormat (urlParse o.url) := by
  unfold mutatedOpts
  split <;> rfl

theorem gatherCalls_append (a b : List Event) :
    gatherCalls (a ++ b) = gatherCalls a ++ gatherCalls b := by
  simp [gatherCalls]

theorem auditCallArgs_append (a b : List Event) :
    auditCallArgs (a ++ b) = auditCallArgs a ++ auditCallArgs b := by
  simp [auditCallArgs]

theorem persistArtifactsCalls_append (a b : List Event) :
    persistArtifactsCalls (a ++ b) = persistArtifactsCalls a ++ persistArtifactsCalls b := by
  simp [persistArtifactsCalls]

theorem warnCount_append (a b : List Event) :
    warnCount (a ++ b) = warnCount a + warnCount b := by
  simp [warnCount]

theorem urlWarnings_only_warns (p : ParsedUrl) (e : Event) (he : e ∈ urlWarnings p) :
    ∃ m, e = .warn m := by
  unfold urlWarnings at he
  split at he <;> simp at he
  rcases he with h | h <;> exact ⟨_, h⟩

theorem gatherCalls_urlWarnings (p : ParsedUrl) : gatherCalls (urlWarnings p) = [] := by
  unfold urlWarnings
  split <;> rfl

theorem auditCallArgs_urlWarnings (p : ParsedUrl) : auditCallArgs (urlWarnings p) = [] := by
  unfold urlWarnings
  split <;> rfl

theorem saveArtifactsStep_events (w : World) (f : Flags) (a : Artifacts) :
    (saveArtifactsStep w f a).events =
      if f.saveArtifacts then [.persistArtifactsCall a] else [] := by
  unfold saveArtifactsStep
  split
  · cases w.saveArtifactsFn a <;> rfl
  · rfl

theorem saveAssetsStep_events (w : World) (f : Flags) (o : Opts) (a : Artifacts) :
    (saveAssetsStep w f o a).events =
      if f.saveAssets then [.persistAssetsCall a] else [] := by
  unfold saveAssetsStep
  split
  · cases w.saveAssetsFn o a <;> rfl
  · rfl

theorem statusEndEvents_only_statusEnd (audits : List AuditDescriptor)
    (tasks : List (Except String AuditResult)) (sched : List Nat) (e : Event)
    (he : e ∈ statusEndEvents audits tasks sched) : ∃ m, e = .statusEndLog m := by
  unfold statusEndEvents at he
  rcases List.mem_filterMap.mp he with ⟨i, _, hi⟩
  revert hi
  split
  · intro hi
    rcases Option.map_eq_some'.mp hi with ⟨a, _, ha⟩
    exact ⟨_, ha.symm⟩
  · intro hi
    simp at hi

theorem auditCallArgs_statusEndEvents (audits : List AuditDescriptor)
    (tasks : List (Except String AuditResult)) (sched : List Nat) :
    auditCallArgs (statusEndEvents audits tasks sched) = [] := by
  rw [auditCallArgs, List.filterMap_eq_nil_iff]
  intro e he
  rcases statusEndEvents_only_statusEnd audits tasks sched e he with ⟨m, rfl⟩
  rfl

theorem auditCallArgs_auditsStep (audits : List AuditDescriptor) (a : Artifacts)
    (sched : List Nat) :
    auditCallArgs (auditsStep audits a sched).events =
      audits.map (fun d => (d.meta.description, a)) := by
  unfold auditsStep
  simp only [auditCallArgs_append]
  rw [auditCallArgs_statusEndEvents, List.append_nil]
  induction audits with
  | nil => rfl
  | cons d ds ih =>
    simp only [auditCallArgs] at ih
    simp only [List.map_cons, List.flatten_cons, auditCallArgs, List.filterMap_append,
      List.filterMap_cons, List.filterMap_nil, ih]
    rfl

theorem gatherCalls_statusEndEvents (audits : List AuditDescriptor)
    (tasks : List (Except String AuditResult)) (sched : List Nat) :
    gatherCalls (statusEndEvents audits tasks sched) = [] := by
  rw [gatherCalls, List.filterMap_eq_nil_iff]
  intro e he
  rcases statusEndEvents_only_statusEnd audits tasks sched e he with ⟨m, rfl⟩
  rfl

theorem gatherCalls_auditsStep (audits : List AuditDescriptor) (a : Artifacts)
    (sched : List Nat) :
    gatherCalls (auditsStep audits a sched).events = [] := by
  unfold auditsStep
  simp only [gatherCalls_append]
  rw [gatherCalls_statusEndEvents, List.append_nil]
  induction audits with
  | nil => rfl
  | cons d ds ih =>
    simp only [gatherCalls] at ih
    simp only [List.map_cons, List.flatten_cons, gatherCalls, List.filterMap_append,
      List.filterMap_cons, List.filterMap_nil, ih]
    rfl

theorem andThen_events_ok {α β : Type} (s : StepOut α) (f : α → StepOut β) (a : α)
    (h : s.result = .ok a) :
    (s.andThen f).events = s.events ++ (f a).events := by
  unfold StepOut.andThen
  rw [h]

theorem andThen_events_error {α β : Type} (s : StepOut α) (f : α → StepOut β) (e : String)
    (h : s.result = .error e) :
    (s.andThen f).events = s.events := by
  unfold StepOut.andThen
  rw [h]

theorem andThen_result_ok {α β : Type} (s : StepOut α) (f : α → StepOut β) (a : α)
    (h : s.result = .ok a) :
    (s.andThen f).result = (f a).result := by
  unfold StepOut.andThen
  rw [h]

theorem andThen_result_error {α β : Type} (s : StepOut α) (f : α → StepOut β) (e : String)
    (h : s.result = .error e) :
    (s.andThen f).result = .error e := by
  unfold StepOut.andThen
  rw [h]

theorem gatherCalls_andThen_nil {α β : Type} (s : StepOut α) (f : α → StepOut β)
    (h : ∀ a, gatherCalls (f a).events = []) :
    gatherCalls (s.andThen f).events = gatherCalls s.events := by
  cases hr : s.result with
  | error e => rw [andThen_events_error s f e hr]
  | ok a => rw [andThen_events_ok s f a hr, gatherCalls_append, h a, List.append_nil]

theorem auditCallArgs_andThen_nil {α β : Type} (s : StepOut α) (f : α → StepOut β)
    (h : ∀ a, auditCallArgs (f a).events = []) :
    auditCallArgs (s.andThen f).events = auditCallArgs s.events := by
  cases hr : s.result with
  | error e => rw [andThen_events_error s f e hr]
  | ok a => rw [andThen_events_ok s f a hr, auditCallArgs_append, h a, List.append_nil]

theorem gatherCalls_saveArtifactsStep (w : World) (f : Flags) (a : Artifacts) :
    gatherCalls (saveArtifactsStep w f a).events = [] := by
  rw [saveArtifactsStep_events]
  split <;> rfl

theorem gatherCalls_saveAssetsStep (w : World) (f : Flags) (o : Opts) (a : Artifacts) :
    gatherCalls (saveAssetsStep w f o a).events = [] := by
  rw [saveAssetsStep_events]
  split <;> rfl

theorem auditCallArgs_saveArtifactsStep (w : World) (f : Flags) (a : Artifacts) :
    auditCallArgs (saveArtifactsStep w f a).events = [] := by
  rw [saveArtifactsStep_events]
  split <;> rfl

theorem auditCallArgs_saveAssetsStep (w : World) (f : Flags) (o : Opts) (a : Artifacts) :
    auditCallArgs (saveAssetsStep w f o a).events = [] := by
  rw [saveAssetsStep_events]
  split <;> rfl

theorem gatherCalls_aggregationStep (w : World) (c : Config) (o : Opts)
    (s : StepOut (List AuditResult)) :
    gatherCalls (aggregationStep w c o s).1 = gatherCalls s.events := by
  unfold aggregationStep
  rcases c.aggregations with _ | specs
  · rfl
  · rcases hr : s.result with e | rs
    · rfl
    · cases hagg : w.aggregate specs rs <;>
        simp [hagg, gatherCalls_append, gatherCalls]

theorem auditCallArgs_aggregationStep (w : World) (c : Config) (o : Opts)
    (s : StepOut (List AuditResult)) :
    auditCallArgs (aggregationStep w c o s).1 = auditCallArgs s.events := by
  unfold aggregationStep
  rcases c.aggregations with _ | specs
  · rfl
  · rcases hr : s.result with e | rs
    · rfl
    · cases hagg : w.aggregate specs rs <;>
        simp [hagg, auditCallArgs_append, auditCallArgs]

theorem aggregationStep_none (w : World) (c : Config) (o : Opts)
    (s : StepOut (List AuditResult)) (h : c.aggregations = none) :
    aggregationStep w c o s =
      (s.events,
        match s.result with
        | .ok rs => .ok (.flat rs)
        | .error e => .error (.thrown e)) := by
  unfold aggregationStep
  simp only [h]

theorem aggregationStep_some_agg_ok (w : World) (c : Config) (o : Opts)
    (s : StepOut (List AuditResult)) (specs : List AggregationSpec)
    (rs : List AuditResult) (aggs : List AggregationResult)
    (h : c.aggregations = some specs) (hr : s.result = .ok rs)
    (hagg : w.aggregate specs rs = .ok aggs) :
    aggregationStep w c o s =
      (s.events ++ [.aggregateCall specs rs],
        .ok (.report
          { initialUrl := o.initialUrl.getD ""
            url := o.url
            audits := formatAudits rs
            aggregations := aggs })) := by
  unfold aggregationStep
  simp only [h, hr, hagg]

theorem aggregationStep_some_agg_error (w : World) (c : Config) (o : Opts)
    (s : StepOut (List AuditResult)) (specs : List AggregationSpec)
    (rs : List AuditResult) (e : String)
    (h : c.aggregations = some specs) (hr : s.result = .ok rs)
    (hagg : w.aggregate specs rs = .error e) :
    aggregationStep w c o s =
      (s.events ++ [.aggregateCall specs rs], .error (.thrown e)) := by
  unfold aggregationStep
  simp only [h, hr, hagg]

theorem aggregationStep_some_prev_error (w : World) (c : Config) (o : Opts)
    (s : StepOut (List AuditResult)) (specs : List AggregationSpec) (e : String)
    (h : c.aggregations = some specs) (hr : s.result = .error e) :
    aggregationStep w c o s = (s.events, .error (.thrown e)) := by
  unfold aggregationStep
  simp only [h, hr]

theorem saveArtifactsStep_result_of_ok (w : World) (flags : Flags) (a : Artifacts)
    (h : flags.saveArtifacts = true → w.saveArtifactsFn a = .ok ()) :
    (saveArtifactsStep w flags a).result = .ok a := by
  unfold saveArtifactsStep
  cases hfa : flags.saveArtifacts
  · simp [hfa]
  · simp [hfa, h hfa]

theorem saveArtifactsStep_result_error (w : World) (flags : Flags) (a : Artifacts) (e : String)
    (hfa : flags.saveArtifacts = true) (h : w.saveArtifactsFn a = .error e) :
    (saveArtifactsStep w flags a).result = .error e := by
  unfold saveArtifactsStep
  simp [hfa, h]

theorem saveAssetsStep_result_of_ok (w : World) (flags : Flags) (o : Opts) (a : Artifacts)
    (h : flags.saveAssets = true → w.saveAssetsFn o a = .ok ()) :
    (saveAssetsStep w flags o a).result = .ok a := by
  unfold saveAssetsStep
  cases hfa : flags.saveAssets
  · simp [hfa]
  · simp [hfa, h hfa]

theorem saveAssetsStep_result_error (w : World) (flags : Flags) (o : Opts) (a : Artifacts)
    (e : String) (hfa : flags.saveAssets = true) (h : w.saveAssetsFn o a = .error e) :
    (saveAssetsStep w flags o a).result = .error e := by
  unfold saveAssetsStep
  simp [hfa, h]

theorem collectResults_map_ok (rs : List AuditResult) :
    collectResults (rs.map Except.ok) = .ok rs := by
  induction rs with
  | nil => rfl
  | cons r rs ih => simp [collectResults, ih]

theorem firstScheduledError_map_ok (rs : List AuditResult) (sched : List Nat) :
    firstScheduledError (rs.map Except.ok) sched = none := by
  unfold firstScheduledError
  rw [List.findSome?_eq_none_iff]
  intro i _
  rw [List.getD_eq_getElem?_getD, List.getElem?_map]
  cases hr : rs[i]? <;> simp [hr]

/-- `Promise.all` over all-resolving tasks: the batch resolves with the
results in task order, for every completion order. -/
theorem promiseAllAudits_map_ok (rs : List AuditResult) (sched : List Nat) :
    promiseAllAudits (rs.map Except.ok) sched = .ok rs := by
  unfold promiseAllAudits
  rw [firstScheduledError_map_ok, collectResults_map_ok]

theorem findSome?_eq_some_of_unique {α β : Type} (l : List α) (f : α → Option β)
    (x : α) (b : β) (hx : x ∈ l) (hfx : f x = some b)
    (hother : ∀ y ∈ l, f y = none ∨ f y = some b) :
    l.findSome? f = some b := by
  induction l with
  | nil => cases hx
  | cons hd tl ih =>
    rw [List.findSome?_cons]
    rcases hother hd (List.mem_cons_self hd tl) with h | h
    · rw [h]
      rcases List.mem_cons.mp hx with rfl | hx'
      · rw [h] at hfx
        cases hfx
      · exact ih hx' (fun y hy => hother y (List.mem_cons_of_mem hd hy))
    · rw [h]

/-- `Promise.all` rejection: when exactly one task rejects with `e` and
the completion order covers every task index, the batch rejects with
`e`, regardless of that order. -/
theorem promiseAllAudits_single_error (tasks : List (Except String AuditResult))
    (sched : List Nat) (i : Nat) (e : String)
    (hi : tasks[i]? = some (.error e))
    (hother : ∀ (j : Nat) (r : Except String AuditResult),
      tasks[j]? = some r → r = .error e ∨ ∃ x, r = .ok x)
    (hperm : sched.Perm (List.range tasks.length)) :
    promiseAllAudits tasks sched = .error e := by
  unfold promiseAllAudits
  have hfse : firstScheduledError tasks sched = some e := by
    unfold firstScheduledError
    apply findSome?_eq_some_of_unique sched _ i e
    · rw [hperm.mem_iff, List.mem_range]
      exact (List.getElem?_eq_some_iff.mp hi).1
    · rw [List.getD_eq_getElem?_getD, hi]
      rfl
    · intro j _
      rw [List.getD_eq_getElem?_getD]
      cases hj : tasks[j]? with
      | none => left; simp [hj]
      | some r =>
        rcases hother j r hj with rfl | ⟨x, rfl⟩
        · right
          simp [hj]
        · left
          simp [hj]
  rw [hfse]

theorem run_AB_flags (w : World) (d : Driver) (opts : Opts) (sched : List Nat) (flags : Flags)
    (hmode : (opts.config.passes.isSome && opts.config.audits.isSome
      || opts.config.artifacts.isSome && opts.config.audits.isSome) = true)
    (hf : opts.flags = some flags) :
    Runner.run w d opts sched =
      { opts := mutatedOpts d opts
        events := urlWarnings (urlParse opts.url)
          ++ (aggregationStep w opts.config (mutatedOpts d opts) (abChain w d opts flags sched)).1
        result := (aggregationStep w opts.config (mutatedOpts d opts)
          (abChain w d opts flags sched)).2 } := by
  unfold Runner.run
  simp only [hmode, mutatedOpts_flags, hf, if_true]

theorem run_AB_noFlags (w : World) (d : Driver) (opts : Opts) (sched : List Nat)
    (hmode : (opts.config.passes.isSome && opts.config.audits.isSome
      || opts.config.artifacts.isSome && opts.config.audits.isSome) = true)
    (hf : opts.flags = none) :
    Runner.run w d opts sched =
      { opts := mutatedOpts d opts
        events := urlWarnings (urlParse opts.url)
          ++ (artifactsStep w opts.config (mutatedOpts d opts)
            (opts.config.passes.isSome && opts.config.audits.isSome)).events
        result := .error (.typeError "Cannot read property saveArtifacts of undefined") } := by
  unfold Runner.run
  simp only [hmode, mutatedOpts_flags, hf, if_true]

theorem run_modeC (w : World) (d : Driver) (opts : Opts) (sched : List Nat)
    (rs : List AuditResult)
    (hA : (opts.config.passes.isSome && opts.config.audits.isSome) = false)
    (hB : (opts.config.artifacts.isSome && opts.config.audits.isSome) = false)
    (hres : opts.config.auditResults = some rs) :
    Runner.run w d opts sched =
      { opts := mutatedOpts d opts
        events := urlWarnings (urlParse opts.url)
          ++ (aggregationStep w opts.config (mutatedOpts d opts)
            { events := [], result := .ok rs }).1
        result := (aggregationStep w opts.config (mutatedOpts d opts)
          { events := [], result := .ok rs }).2 } := by
  unfold Runner.run
  simp only [hA, hB, hres, Bool.or_self, Bool.false_eq_true, if_false,
    Option.isSome_some, if_true, Option.getD_some]

theorem run_noMode (w : World) (d : Driver) (opts : Opts) (sched : List Nat)
    (hA : (opts.config.passes.isSome && opts.config.audits.isSome) = false)
    (hB : (opts.config.artifacts.isSome && opts.config.audits.isSome) = false)
    (hres : opts.config.auditResults = none) :
    Runner.run w d opts sched =
      { opts := mutatedOpts d opts
        events := urlWarnings (urlParse opts.url)
        result := .error (.configError
          "The config must provide passes and audits, artifacts and audits, or auditResults") } := by
  unfold Runner.run
  simp only [hA, hB, hres, Bool.or_self, Bool.false_eq_true, if_false, Option.isSome_none]

/-- C1: when the configuration provides none of the three mode shapes
(neither passes-and-audits, nor artifacts-and-audits, nor auditResults),
the run fails immediately with the configuration error and no
collaborator (gathering, persistence, audit, aggregation) is invoked. -/
theorem C1_no_mode_config_error
    (w : World) (d : Driver) (opts : Opts) (sched : List Nat)
    (hA : (opts.config.passes.isSome && opts.config.audits.isSome) = false)
    (hB : (opts.config.artifacts.isSome && opts.config.audits.isSome) = false)
    (hC : opts.config.auditResults = none) :
    (Runner.run w d opts sched).result = .error (.configError
      "The config must provide passes and audits, artifacts and audits, or auditResults")
    ∧ ∀ e ∈ (Runner.run w d opts sched).events, e.isCollabCall = false := by
  unfold Runner.run
  simp only [hA, hB, hC, Bool.or_self, Bool.false_eq_true, if_false, Option.isSome_none]
  refine ⟨by trivial, ?_⟩
  intro e he
  rcases urlWarnings_only_warns _ e he with ⟨m, rfl⟩
  rfl

/-- Witness for C1 at a fully empty configuration. -/
theorem C1_no_mode_config_error_witness :
    (Runner.run sampleWorld "session" { url := "https://example.com/", config := {} } []).result
      = .error (.configError
        "The config must provide passes and audits, artifacts and audits, or auditResults") :=
  (C1_no_mode_config_error sampleWorld "session"
    { url := "https://example.com/", config := {} } [] rfl rfl rfl).1

theorem gatherCalls_nil : gatherCalls [] = [] := rfl

theorem auditCallArgs_nil : auditCallArgs [] = [] := rfl

theorem persistArtifactsCalls_nil : persistArtifactsCalls [] = [] := rfl

theorem gatherCalls_artifactsStep_modeA (w : World) (c : Config) (o : Opts)
    (ps : List Pass) (hp : c.passes = some ps) :
    gatherCalls (artifactsStep w c o true).events = [ps] := by
  unfold artifactsStep
  simp [hp, gatherCalls]

theorem gatherCalls_artifactsStep_modeB (w : World) (c : Config) (o : Opts) :
    gatherCalls (artifactsStep w c o false).events = [] := by
  unfold artifactsStep
  rcases c.artifacts <;> simp [gatherCalls]

theorem gatherCalls_chain (w : World) (s : StepOut Artifacts) (o : Opts)
    (flags : Flags) (auds : List AuditDescriptor) (sched : List Nat) :
    gatherCalls (((s.andThen (saveArtifactsStep w flags)).andThen
        (saveAssetsStep w flags o)).andThen
        (fun a => auditsStep auds a sched)).events
      = gatherCalls s.events := by
  rw [gatherCalls_andThen_nil _ _ (fun a => gatherCalls_auditsStep auds a sched),
    gatherCalls_andThen_nil _ _ (fun a => gatherCalls_saveAssetsStep w flags o a),
    gatherCalls_andThen_nil _ _ (fun a => gatherCalls_saveArtifactsStep w flags a)]

theorem gatherCalls_abChain (w : World) (d : Driver) (opts : Opts) (flags : Flags)
    (sched : List Nat) :
    gatherCalls (abChain w d opts flags sched).events =
      gatherCalls (artifactsStep w opts.config (mutatedOpts d opts)
        (opts.config.passes.isSome && opts.config.audits.isSome)).events := by
  unfold abChain
  exact gatherCalls_chain w _ _ flags _ sched

/-- C2: the gathering collaborator is invoked if and only if the
configuration is mode A (passes and audits both present), and then
exactly once with the configured passes; mode A wins over mode B even
when artifacts are also present, and in mode B (artifacts and audits
without passes) gathering is never invoked. -/
theorem C2_gather_iff_modeA
    (w : World) (d : Driver) (opts : Opts) (sched : List Nat) :
    gatherCalls (Runner.run w d opts sched).events =
      (if opts.config.passes.isSome && opts.config.audits.isSome
       then [opts.config.passes.getD []] else []) := by
  unfold Runner.run
  rcases hp : opts.config.passes with _ | ps <;>
  rcases ha : opts.config.audits with _ | auds <;>
  rcases hart : opts.config.artifacts with _ | arts <;>
  rcases hres : opts.config.auditResults with _ | rs <;>
  rcases hf : opts.flags with _ | flags <;>
  simp [hp, ha, hart, hres, hf, mutatedOpts_flags, gatherCalls_append,
    gatherCalls_urlWarnings, gatherCalls_aggregationStep, gatherCalls_abChain,
    gatherCalls_auditsStep, gatherCalls_artifactsStep_modeA,
    gatherCalls_artifactsStep_modeB, gatherCalls_nil]

/-- C3: for a mode C configuration (auditResults present, neither mode
A nor mode B applies), the run invokes neither the gathering
collaborator nor any audit function, and the result is built directly
from the configured pre-computed auditResults — passed through to the
aggregation phase when one is configured. -/
theorem C3_modeC_passthrough
    (w : World) (d : Driver) (opts : Opts) (sched : List Nat) (rs : List AuditResult)
    (hA : (opts.config.passes.isSome && opts.config.audits.isSome) = false)
    (hB : (opts.config.artifacts.isSome && opts.config.audits.isSome) = false)
    (hres : opts.config.auditResults = some rs) :
    gatherCalls (Runner.run w d opts sched).events = []
    ∧ auditCallArgs (Runner.run w d opts sched).events = []
    ∧ (opts.config.aggregations = none →
        (Runner.run w d opts sched).result = .ok (.flat rs))
    ∧ (∀ specs aggs, opts.config.aggregations = some specs →
        w.aggregate specs rs = .ok aggs →
        (Runner.run w d opts sched).result = .ok (.report
          { initialUrl := opts.url
            url := urlFormat (urlParse opts.url)
            audits := formatAudits rs
            aggregations := aggs })) := by
  rw [run_modeC w d opts sched rs hA hB hres]
  refine ⟨?_, ?_, ?_, ?_⟩
  · simp [gatherCalls_append, gatherCalls_urlWarnings, gatherCalls_aggregationStep,
      gatherCalls_nil]
  · simp [auditCallArgs_append, auditCallArgs_urlWarnings, auditCallArgs_aggregationStep,
      auditCallArgs_nil]
  · intro hag
    rw [aggregationStep_none w opts.config (mutatedOpts d opts) _ hag]
  · intro specs aggs hag hagg
    rw [aggregationStep_some_agg_ok w opts.config (mutatedOpts d opts) _ specs rs aggs hag rfl hagg]
    simp [mutatedOpts_initialUrl, mutatedOpts_url]

/-- Witness for C3 at a concrete mode C configuration with an
aggregation specification. -/
theorem C3_modeC_passthrough_witness :
    (Runner.run sampleWorld "session" modeCOpts []).result = .ok (.report
      { initialUrl := modeCOpts.url
        url := urlFormat (urlParse modeCOpts.url)
        audits := formatAudits [{ name := "speed", value := "fast" }]
        aggregations := ["perf scored"] }) :=
  (C3_modeC_passthrough sampleWorld "session" modeCOpts []
      [{ name := "speed", value := "fast" }] rfl rfl rfl).2.2.2
    ["perf"] ["perf scored"] rfl rfl

theorem auditCallArgs_artifactsStep (w : World) (c : Config) (o : Opts) (m : Bool) :
    auditCallArgs (artifactsStep w c o m).events = [] := by
  unfold artifactsStep
  cases m
  · rcases c.artifacts <;> simp [auditCallArgs]
  · rcases c.passes <;> simp [auditCallArgs]

theorem abChain_result_ok (w : World) (d : Driver) (opts : Opts) (flags : Flags)
    (sched : List Nat) (a : Artifacts)
    (hart : resolvedArtifacts w d opts = .ok a)
    (hpa : flags.saveArtifacts = true → w.saveArtifactsFn a = .ok ())
    (hps : flags.saveAssets = true → w.saveAssetsFn (mutatedOpts d opts) a = .ok ()) :
    (abChain w d opts flags sched).result =
      promiseAllAudits ((opts.config.audits.getD []).map (fun dd => dd.audit a)) sched := by
  unfold abChain
  have h1 : (artifactsStep w opts.config (mutatedOpts d opts)
      (opts.config.passes.isSome && opts.config.audits.isSome)).result = .ok a := hart
  have h2 : ((artifactsStep w opts.config (mutatedOpts d opts)
      (opts.config.passes.isSome && opts.config.audits.isSome)).andThen
      (saveArtifactsStep w flags)).result = .ok a := by
    rw [andThen_result_ok _ _ a h1]
    exact saveArtifactsStep_result_of_ok w flags a hpa
  have h3 : (((artifactsStep w opts.config (mutatedOpts d opts)
      (opts.config.passes.isSome && opts.config.audits.isSome)).andThen
      (saveArtifactsStep w flags)).andThen
      (saveAssetsStep w flags (mutatedOpts d opts))).result = .ok a := by
    rw [andThen_result_ok _ _ a h2]
    exact saveAssetsStep_result_of_ok w flags (mutatedOpts d opts) a hps
  rw [andThen_result_ok _ _ a h3]
  rfl

theorem abChain_events_ok (w : World) (d : Driver) (opts : Opts) (flags : Flags)
    (sched : List Nat) (a : Artifacts)
    (hart : resolvedArtifacts w d opts = .ok a)
    (hpa : flags.saveArtifacts = true → w.saveArtifactsFn a = .ok ())
    (hps : flags.saveAssets = true → w.saveAssetsFn (mutatedOpts d opts) a = .ok ()) :
    (abChain w d opts flags sched).events =
      (artifactsStep w opts.config (mutatedOpts d opts)
        (opts.config.passes.isSome && opts.config.audits.isSome)).events
      ++ (saveArtifactsStep w flags a).events
      ++ (saveAssetsStep w flags (mutatedOpts d opts) a).events
      ++ (auditsStep (opts.config.audits.getD []) a sched).events := by
  unfold abChain
  have h1 : (artifactsStep w opts.config (mutatedOpts d opts)
      (opts.config.passes.isSome && opts.config.audits.isSome)).result = .ok a := hart
  have h2 : ((artifactsStep w opts.config (mutatedOpts d opts)
      (opts.config.passes.isSome && opts.config.audits.isSome)).andThen
      (saveArtifactsStep w flags)).result = .ok a := by
    rw [andThen_result_ok _ _ a h1]
    exact saveArtifactsStep_result_of_ok w flags a hpa
  have h3 : (((artifactsStep w opts.config (mutatedOpts d opts)
      (opts.config.passes.isSome && opts.config.audits.isSome)).andThen
      (saveArtifactsStep w flags)).andThen
      (saveAssetsStep w flags (mutatedOpts d opts))).result = .ok a := by
    rw [andThen_result_ok _ _ a h2]
    exact saveAssetsStep_result_of_ok w flags (mutatedOpts d opts) a hps
  rw [andThen_events_ok _ _ a h3, andThen_events_ok _ _ a h2, andThen_events_ok _ _ a h1]

theorem mem_insertAssoc_key (m : List (String × AuditResult)) (k : String) (v : AuditResult)
    (hk : k = v.name) (h : ∀ p ∈ m, p.1 = p.2.name) :
    ∀ p ∈ insertAssoc m k v, p.1 = p.2.name := by
  intro p hp
  unfold insertAssoc at hp
  split at hp
  · rcases List.mem_map.mp hp with ⟨q, hq, rfl⟩
    by_cases hq1 : q.1 = k
    · rw [if_pos hq1]
      exact hk
    · rw [if_neg hq1]
      exact h q hq
  · rcases List.mem_append.mp hp with h1 | h1
    · exact h p h1
    · rw [List.mem_singleton.mp h1]
      exact hk

theorem formatAudits_keys_aux (rs : List AuditResult) :
    ∀ (m : List (String × AuditResult)), (∀ p ∈ m, p.1 = p.2.name) →
    ∀ p ∈ rs.foldl (fun m r => insertAssoc m r.name r) m, p.1 = p.2.name := by
  induction rs with
  | nil => exact fun m h => h
  | cons r rs ih =>
    intro m h p hp
    rw [List.foldl_cons] at hp
    exact ih (insertAssoc m r.name r) (mem_insertAssoc_key m r.name r rfl h) p hp

/-- Every entry of the `audits` mapping is keyed by its own result's
`name` field. -/
theorem formatAudits_keys (rs : List AuditResult) :
    ∀ p ∈ formatAudits rs, p.1 = p.2.name := by
  unfold formatAudits
  exact formatAudits_keys_aux rs [] (by intro p hp; cases hp)

theorem insertAssoc_of_fresh (m : List (String × AuditResult)) (k : String) (v : AuditResult)
    (h : ∀ p ∈ m, p.1 ≠ k) : insertAssoc m k v = m ++ [(k, v)] := by
  unfold insertAssoc
  have h' : m.any (fun p => decide (p.1 = k)) = false := by
    rw [List.any_eq_false]
    intro p hp
    simpa using h p hp
  simp only [h', Bool.false_eq_true, if_false]

theorem formatAudits_nodup_aux : ∀ (rs : List AuditResult) (m : List (String × AuditResult)),
    (∀ r ∈ rs, ∀ p ∈ m, p.1 ≠ r.name) →
    ((rs.map (fun r => r.name)).Nodup) →
    rs.foldl (fun m r => insertAssoc m r.name r) m = m ++ rs.map (fun r => (r.name, r))
  | [], m, _, _ => by simp
  | r :: rs, m, hd, h => by
    have hfresh : ∀ p ∈ m, p.1 ≠ r.name :=
      fun p hp => hd r (List.mem_cons_self r rs) p hp
    have hpair := List.nodup_cons.mp (by simpa using h :
      (r.name :: rs.map (fun x => x.name)).Nodup)
    have hd' : ∀ r' ∈ rs, ∀ p ∈ m ++ [(r.name, r)], p.1 ≠ r'.name := by
      intro r' hr' p hp
      rcases List.mem_append.mp hp with h1 | h1
      · exact hd r' (List.mem_cons_of_mem r hr') p h1
      · rw [List.mem_singleton.mp h1]
        intro heq
        have hmem : r'.name ∈ rs.map (fun x => x.name) :=
          List.mem_map_of_mem (fun x => x.name) hr'
        rw [← heq] at hmem
        exact hpair.1 hmem
    rw [List.foldl_cons, insertAssoc_of_fresh m r.name r hfresh,
      formatAudits_nodup_aux rs (m ++ [(r.name, r)]) hd' hpair.2]
    simp

/-- With pairwise-distinct result names, the `audits` mapping is the
results in order, keyed by their names. -/
theorem formatAudits_nodup (rs : List AuditResult)
    (h : (rs.map (fun r => r.name)).Nodup) :
    formatAudits rs = rs.map (fun r => (r.name, r)) := by
  unfold formatAudits
  have := formatAudits_nodup_aux rs [] (by intro r _ p hp; cases hp) h
  simpa using this

/-- C4, counterexample: with two configured audits whose results share
the name "speed", the resolved `audits` mapping has one entry, not two
— the claim's "exactly N entries" fails when result names repeat
(JS object assignment: last write wins). -/
theorem C4_duplicate_names_counterexample :
    (dupOpts.config.audits.getD []).length = 2
    ∧ reportAuditsCount (Runner.run sampleWorld "session" dupOpts [0, 1]) = 1 := by
  constructor
  · rfl
  · rfl

/-- C4, amended: for every mode A/B run that reaches the audit phase
with artifacts `a` and whose audit invocations all succeed, every audit
function is invoked exactly once with those artifacts (in configured
order), the audit-result list is the configured-order list `results`
for every completion order `sched`, every entry of the `audits` mapping
is keyed by its own result's `name`, and the mapping has exactly N
entries when the N result names are distinct (fewer entries — last
write wins — when names repeat). -/
theorem C4_amended_ordered_fanout
    (w : World) (d : Driver) (opts : Opts) (sched : List Nat) (a : Artifacts)
    (auds : List AuditDescriptor) (results : List AuditResult) (flags : Flags)
    (hmode : (opts.config.passes.isSome || opts.config.artifacts.isSome) = true)
    (ha : opts.config.audits = some auds)
    (hf : opts.flags = some flags)
    (hart : resolvedArtifacts w d opts = .ok a)
    (hpa : flags.saveArtifacts = true → w.saveArtifactsFn a = .ok ())
    (hps : flags.saveAssets = true → w.saveAssetsFn (mutatedOpts d opts) a = .ok ())
    (hok : auds.map (fun dd => dd.audit a) = results.map Except.ok) :
    auditCallArgs (Runner.run w d opts sched).events
      = auds.map (fun dd => (dd.meta.description, a))
    ∧ (opts.config.aggregations = none →
        (Runner.run w d opts sched).result = .ok (.flat results))
    ∧ (∀ specs aggs, opts.config.aggregations = some specs →
        w.aggregate specs results = .ok aggs →
        (Runner.run w d opts sched).result = .ok (.report
          { initialUrl := opts.url
            url := urlFormat (urlParse opts.url)
            audits := formatAudits results
            aggregations := aggs }))
    ∧ (∀ p ∈ formatAudits results, p.1 = p.2.name)
    ∧ ((results.map (fun r => r.name)).Nodup →
        (formatAudits results).length = auds.length) := by
  have hAB : (opts.config.passes.isSome && opts.config.audits.isSome
      || opts.config.artifacts.isSome && opts.config.audits.isSome) = true := by
    rw [ha]
    simp only [Option.isSome_some, Bool.and_true]
    exact hmode
  have hchain : (abChain w d opts flags sched).result = .ok results := by
    rw [abChain_result_ok w d opts flags sched a hart hpa hps, ha]
    simp only [Option.getD_some]
    rw [hok, promiseAllAudits_map_ok]
  refine ⟨?_, ?_, ?_, formatAudits_keys results, ?_⟩
  · rw [run_AB_flags w d opts sched flags hAB hf]
    simp only [auditCallArgs_append, auditCallArgs_urlWarnings, List.nil_append,
      auditCallArgs_aggregationStep,
      abChain_events_ok w d opts flags sched a hart hpa hps,
      auditCallArgs_artifactsStep, auditCallArgs_saveArtifactsStep,
      auditCallArgs_saveAssetsStep, auditCallArgs_auditsStep, ha, Option.getD_some]
  · intro hag
    rw [run_AB_flags w d opts sched flags hAB hf]
    show (aggregationStep w opts.config (mutatedOpts d opts)
      (abChain w d opts flags sched)).2 = _
    rw [aggregationStep_none w opts.config (mutatedOpts d opts) _ hag]
    simp only [hchain]
  · intro specs aggs hag hagg
    rw [run_AB_flags w d opts sched flags hAB hf]
    show (aggregationStep w opts.config (mutatedOpts d opts)
      (abChain w d opts flags sched)).2 = _
    rw [aggregationStep_some_agg_ok w opts.config (mutatedOpts d opts) _ specs results aggs
      hag hchain hagg]
    simp [mutatedOpts_initialUrl, mutatedOpts_url]
  · intro hnodup
    have hlen : auds.length = results.length := by
      have := congrArg List.length hok
      simpa using this
    rw [formatAudits_nodup results hnodup, List.length_map, hlen]

/-- Witness for the amended C4 at a concrete mode B run with two
distinct-name audits and two completion orders. -/
theorem C4_amended_ordered_fanout_witness :
    auditCallArgs (Runner.run sampleWorld "session" modeBOpts [1, 0]).events =
      [("first audit", [("k", "v")]), ("second audit", [("k", "v")])]
    ∧ (formatAudits
        [{ name := "alpha", value := "one" }, { name := "beta", value := "two" }]).length = 2 := by
  have T := C4_amended_ordered_fanout sampleWorld "session" modeBOpts [1, 0] [("k", "v")]
    (modeBOpts.config.audits.getD [])
    [{ name := "alpha", value := "one" }, { name := "beta", value := "two" }]
    { saveArtifacts := false, saveAssets := false }
    rfl rfl rfl rfl (fun h => by cases h) (fun h => by cases h) rfl
  exact ⟨T.1, T.2.2.2.2 (by decide)⟩

theorem warnCount_nil : warnCount [] = 0 := rfl

theorem warnCount_statusEndEvents (audits : List AuditDescriptor)
    (tasks : List (Except String AuditResult)) (sched : List Nat) :
    warnCount (statusEndEvents audits tasks sched) = 0 := by
  unfold warnCount
  rw [List.length_eq_zero, List.filter_eq_nil_iff]
  intro e he
  rcases statusEndEvents_only_statusEnd audits tasks sched e he with ⟨m, rfl⟩
  simp

theorem warnCount_auditStartEvents (audits : List AuditDescriptor) (a : Artifacts) :
    warnCount ((audits.map (fun d =>
      [Event.statusLog (statusOf d), Event.auditCall d.meta.description a])).flatten) = 0 := by
  induction audits with
  | nil => rfl
  | cons dd ds ih =>
    simp only [List.map_cons, List.flatten_cons]
    rw [show (Event.statusLog (statusOf dd) :: [Event.auditCall dd.meta.description a]) ++
        (ds.map (fun d => [Event.statusLog (statusOf d),
          Event.auditCall d.meta.description a])).flatten =
      [Event.statusLog (statusOf dd), Event.auditCall dd.meta.description a] ++
        (ds.map (fun d => [Event.statusLog (statusOf d),
          Event.auditCall d.meta.description a])).flatten from rfl]
    rw [warnCount_append, ih]
    rfl

theorem warnCount_auditsStep (audits : List AuditDescriptor) (a : Artifacts)
    (sched : List Nat) :
    warnCount (auditsStep audits a sched).events = 0 := by
  unfold auditsStep
  rw [warnCount_append, warnCount_statusEndEvents, warnCount_auditStartEvents]

theorem warnCount_artifactsStep (w : World) (c : Config) (o : Opts) (m : Bool) :
    warnCount (artifactsStep w c o m).events = 0 := by
  unfold artifactsStep
  cases m
  · rcases c.artifacts <;> simp [warnCount]
  · rcases c.passes <;> simp [warnCount]

theorem warnCount_saveArtifactsStep (w : World) (f : Flags) (a : Artifacts) :
    warnCount (saveArtifactsStep w f a).events = 0 := by
  rw [saveArtifactsStep_events]
  split <;> rfl

theorem warnCount_saveAssetsStep (w : World) (f : Flags) (o : Opts) (a : Artifacts) :
    warnCount (saveAssetsStep w f o a).events = 0 := by
  rw [saveAssetsStep_events]
  split <;> rfl

theorem warnCount_andThen_nil {α β : Type} (s : StepOut α) (f : α → StepOut β)
    (h : ∀ a, warnCount (f a).events = 0) :
    warnCount (s.andThen f).events = warnCount s.events := by
  cases hr : s.result with
  | error e => rw [andThen_events_error s f e hr]
  | ok a => rw [andThen_events_ok s f a hr, warnCount_append, h a, Nat.add_zero]

theorem warnCount_aggregationStep (w : World) (c : Config) (o : Opts)
    (s : StepOut (List AuditResult)) :
    warnCount (aggregationStep w c o s).1 = warnCount s.events := by
  unfold aggregationStep
  rcases c.aggregations with _ | specs
  · rfl
  · rcases hr : s.result with e | rs
    · rfl
    · cases hagg : w.aggregate specs rs <;>
        simp [hagg, warnCount_append, warnCount]

theorem warnCount_abChain (w : World) (d : Driver) (opts : Opts) (flags : Flags)
    (sched : List Nat) :
    warnCount (abChain w d opts flags sched).events = 0 := by
  unfold abChain
  rw [warnCount_andThen_nil _ _ (fun a => warnCount_auditsStep _ a sched),
    warnCount_andThen_nil _ _ (fun a => warnCount_saveAssetsStep w flags _ a),
    warnCount_andThen_nil _ _ (fun a => warnCount_saveArtifactsStep w flags a),
    warnCount_artifactsStep]

/-- Every warning of a run comes from the URL advisory check. -/
theorem warnCount_run (w : World) (d : Driver) (opts : Opts) (sched : List Nat) :
    warnCount (Runner.run w d opts sched).events
      = warnCount (urlWarnings (urlParse opts.url)) := by
  unfold Runner.run
  rcases hp : opts.config.passes with _ | ps <;>
  rcases ha : opts.config.audits with _ | auds <;>
  rcases hart : opts.config.artifacts with _ | arts <;>
  rcases hres : opts.config.auditResults with _ | rs <;>
  rcases hf : opts.flags with _ | flags <;>
  simp [hp, ha, hart, hres, hf, mutatedOpts_flags, warnCount_append,
    warnCount_aggregationStep, warnCount_abChain, warnCount_auditsStep,
    warnCount_artifactsStep, warnCount_nil]

theorem persistArtifactsCalls_urlWarnings (p : ParsedUrl) :
    persistArtifactsCalls (urlWarnings p) = [] := by
  unfold urlWarnings
  split <;> rfl

theorem persistArtifactsCalls_artifactsStep (w : World) (c : Config) (o : Opts) (m : Bool) :
    persistArtifactsCalls (artifactsStep w c o m).events = [] := by
  unfold artifactsStep
  cases m
  · rcases c.artifacts <;> simp [persistArtifactsCalls]
  · rcases c.passes <;> simp [persistArtifactsCalls]

theorem persistArtifactsCalls_saveArtifactsStep (w : World) (f : Flags) (a : Artifacts) :
    persistArtifactsCalls (saveArtifactsStep w f a).events =
      if f.saveArtifacts then [a] else [] := by
  rw [saveArtifactsStep_events]
  split <;> rfl

theorem persistArtifactsCalls_saveAssetsStep (w : World) (f : Flags) (o : Opts) (a : Artifacts) :
    persistArtifactsCalls (saveAssetsStep w f o a).events = [] := by
  rw [saveAssetsStep_events]
  split <;> rfl

theorem persistArtifactsCalls_statusEndEvents (audits : List AuditDescriptor)
    (tasks : List (Except String AuditResult)) (sched : List Nat) :
    persistArtifactsCalls (statusEndEvents audits tasks sched) = [] := by
  rw [persistArtifactsCalls, List.filterMap_eq_nil_iff]
  intro e he
  rcases statusEndEvents_only_statusEnd audits tasks sched e he with ⟨m, rfl⟩
  rfl

theorem persistArtifactsCalls_auditsStep (audits : List AuditDescriptor) (a : Artifacts)
    (sched : List Nat) :
    persistArtifactsCalls (auditsStep audits a sched).events = [] := by
  unfold auditsStep
  simp only [persistArtifactsCalls_append]
  rw [persistArtifactsCalls_statusEndEvents, List.append_nil]
  induction audits with
  | nil => rfl
  | cons dd ds ih =>
    simp only [persistArtifactsCalls] at ih
    simp only [List.map_cons, List.flatten_cons, persistArtifactsCalls,
      List.filterMap_append, List.filterMap_cons, List.filterMap_nil, ih]
    rfl

theorem persistArtifactsCalls_aggregationStep (w : World) (c : Config) (o : Opts)
    (s : StepOut (List AuditResult)) :
    persistArtifactsCalls (aggregationStep w c o s).1 = persistArtifactsCalls s.events := by
  unfold aggregationStep
  rcases c.aggregations with _ | specs
  · rfl
  · rcases hr : s.result with e | rs
    · rfl
    · cases hagg : w.aggregate specs rs <;>
        simp [hagg, persistArtifactsCalls_append, persistArtifactsCalls]

theorem persistAssetsCalls_append (a b : List Event) :
    persistAssetsCalls (a ++ b) = persistAssetsCalls a ++ persistAssetsCalls b := by
  simp [persistAssetsCalls]

theorem persistAssetsCalls_urlWarnings (p : ParsedUrl) :
    persistAssetsCalls (urlWarnings p) = [] := by
  unfold urlWarnings
  split <;> rfl

theorem persistAssetsCalls_artifactsStep (w : World) (c : Config) (o : Opts) (m : Bool) :
    persistAssetsCalls (artifactsStep w c o m).events = [] := by
  unfold artifactsStep
  cases m
  · rcases c.artifacts <;> simp [persistAssetsCalls]
  · rcases c.passes <;> simp [persistAssetsCalls]

theorem persistAssetsCalls_saveArtifactsStep (w : World) (f : Flags) (a : Artifacts) :
    persistAssetsCalls (saveArtifactsStep w f a).events = [] := by
  rw [saveArtifactsStep_events]
  split <;> rfl

theorem persistAssetsCalls_saveAssetsStep (w : World) (f : Flags) (o : Opts) (a : Artifacts) :
    persistAssetsCalls (saveAssetsStep w f o a).events =
      if f.saveAssets then [a] else [] := by
  rw [saveAssetsStep_events]
  split <;> rfl

theorem persistAssetsCalls_statusEndEvents (audits : List AuditDescriptor)
    (tasks : List (Except String AuditResult)) (sched : List Nat) :
    persistAssetsCalls (statusEndEvents audits tasks sched) = [] := by
  rw [persistAssetsCalls, List.filterMap_eq_nil_iff]
  intro e he
  rcases statusEndEvents_only_statusEnd audits tasks sched e he with ⟨m, rfl⟩
  rfl

theorem persistAssetsCalls_auditsStep (audits : List AuditDescriptor) (a : Artifacts)
    (sched : List Nat) :
    persistAssetsCalls (auditsStep audits a sched).events = [] := by
  unfold auditsStep
  simp only [persistAssetsCalls_append]
  rw [persistAssetsCalls_statusEndEvents, List.append_nil]
  induction audits with
  | nil => rfl
  | cons dd ds ih =>
    simp only [persistAssetsCalls] at ih
    simp only [List.map_cons, List.flatten_cons, persistAssetsCalls,
      List.filterMap_append, List.filterMap_cons, List.filterMap_nil, ih]
    rfl

theorem persistAssetsCalls_aggregationStep (w : World) (c : Config) (o : Opts)
    (s : StepOut (List AuditResult)) :
    persistAssetsCalls (aggregationStep w c o s).1 = persistAssetsCalls s.events := by
  unfold aggregationStep
  rcases c.aggregations with _ | specs
  · rfl
  · rcases hr : s.result with e | rs
    · rfl
    · cases hagg : w.aggregate specs rs <;>
        simp [hagg, persistAssetsCalls_append, persistAssetsCalls]

theorem aggregationStep_none_ok_inv (w : World) (c : Config) (o : Opts)
    (s : StepOut (List AuditResult)) (v : RunValue) (h : c.aggregations = none)
    (hv : (aggregationStep w c o s).2 = .ok v) :
    ∃ rs, s.result = .ok rs ∧ v = .flat rs := by
  rw [aggregationStep_none w c o s h] at hv
  cases hr : s.result with
  | error e =>
    rw [hr] at hv
    simp at hv
  | ok rs =>
    rw [hr] at hv
    simp only [Except.ok.injEq] at hv
    exact ⟨rs, rfl, hv.symm⟩

theorem aggregationStep_some_ok_inv (w : World) (c : Config) (o : Opts)
    (s : StepOut (List AuditResult)) (specs : List AggregationSpec) (v : RunValue)
    (h : c.aggregations = some specs)
    (hv : (aggregationStep w c o s).2 = .ok v) :
    ∃ rs aggs, s.result = .ok rs ∧ w.aggregate specs rs = .ok aggs
      ∧ v = .report
          { initialUrl := o.initialUrl.getD ""
            url := o.url
            audits := formatAudits rs
            aggregations := aggs }
      ∧ (aggregationStep w c o s).1 = s.events ++ [.aggregateCall specs rs] := by
  cases hr : s.result with
  | error e =>
    rw [aggregationStep_some_prev_error w c o s specs e h hr] at hv
    simp at hv
  | ok rs =>
    cases hagg : w.aggregate specs rs with
    | error e =>
      rw [aggregationStep_some_agg_error w c o s specs rs e h hr hagg] at hv
      simp at hv
    | ok aggs =>
      rw [aggregationStep_some_agg_ok w c o s specs rs aggs h hr hagg] at hv
      simp only [Except.ok.injEq] at hv
      refine ⟨rs, aggs, rfl, hagg, hv.symm, ?_⟩
      rw [aggregationStep_some_agg_ok w c o s specs rs aggs h hr hagg]

/-- Whenever a run resolves successfully, its result and events came
through the aggregation phase applied to some audit-result chain. -/
theorem run_result_ok_shape (w : World) (d : Driver) (opts : Opts) (sched : List Nat)
    (v : RunValue) (hv : (Runner.run w d opts sched).result = .ok v) :
    ∃ s : StepOut (List AuditResult),
      (Runner.run w d opts sched).result
        = (aggregationStep w opts.config (mutatedOpts d opts) s).2
      ∧ (Runner.run w d opts sched).events
        = urlWarnings (urlParse opts.url)
          ++ (aggregationStep w opts.config (mutatedOpts d opts) s).1 := by
  cases hAB : (opts.config.passes.isSome && opts.config.audits.isSome
      || opts.config.artifacts.isSome && opts.config.audits.isSome) with
  | true =>
    cases hf : opts.flags with
    | none =>
      rw [run_AB_noFlags w d opts sched hAB hf] at hv
      simp at hv
    | some flags =>
      refine ⟨abChain w d opts flags sched, ?_, ?_⟩
      · rw [run_AB_flags w d opts sched flags hAB hf]
      · rw [run_AB_flags w d opts sched flags hAB hf]
  | false =>
    have hA : (opts.config.passes.isSome && opts.config.audits.isSome) = false := by
      rcases Bool.or_eq_false_iff.mp hAB with ⟨h1, _⟩
      exact h1
    have hB : (opts.config.artifacts.isSome && opts.config.audits.isSome) = false := by
      rcases Bool.or_eq_false_iff.mp hAB with ⟨_, h2⟩
      exact h2
    cases hres : opts.config.auditResults with
    | none =>
      rw [run_noMode w d opts sched hA hB hres] at hv
      simp at hv
    | some rs =>
      refine ⟨{ events := [], result := .ok rs }, ?_, ?_⟩
      · rw [run_modeC w d opts sched rs hA hB hres]
      · rw [run_modeC w d opts sched rs hA hB hres]

/-- C5: when the configuration carries an aggregation specification,
every successful run resolves to the report shape whose `aggregations`
field is exactly the sequence returned by the aggregation collaborator,
unmodified; without an aggregation specification the run resolves to
the flat audit-result collection, never the report shape. -/
theorem C5_report_shape
    (w : World) (d : Driver) (opts : Opts) (sched : List Nat) :
    (opts.config.aggregations = none →
      ∀ v, (Runner.run w d opts sched).result = .ok v → ∃ rs, v = .flat rs)
    ∧ (∀ specs, opts.config.aggregations = some specs →
      ∀ v, (Runner.run w d opts sched).result = .ok v →
      ∃ r rs, v = .report r
        ∧ w.aggregate specs rs = .ok r.aggregations
        ∧ r.audits = formatAudits rs
        ∧ Event.aggregateCall specs rs ∈ (Runner.run w d opts sched).events) := by
  constructor
  · intro hag v hv
    obtain ⟨s, hres, _⟩ := run_result_ok_shape w d opts sched v hv
    rw [hres] at hv
    obtain ⟨rs, _, hflat⟩ :=
      aggregationStep_none_ok_inv w opts.config (mutatedOpts d opts) s v hag hv
    exact ⟨rs, hflat⟩
  · intro specs hag v hv
    obtain ⟨s, hres, hevs⟩ := run_result_ok_shape w d opts sched v hv
    rw [hres] at hv
    obtain ⟨rs, aggs, _, hagg, hrep, hev1⟩ :=
      aggregationStep_some_ok_inv w opts.config (mutatedOpts d opts) s specs v hag hv
    refine ⟨_, rs, hrep, hagg, rfl, ?_⟩
    rw [hevs, hev1]
    simp

/-- Witness for C5 at a concrete aggregation-bearing run. -/
theorem C5_report_shape_witness :
    ∃ r rs, (RunValue.report
        { initialUrl := "https://example.com/"
          url := "https://example.com/"
          audits := [("speed", { name := "speed", value := "fast" })]
          aggregations := ["perf scored"] } : RunValue) = .report r
      ∧ sampleWorld.aggregate ["perf"] rs = .ok r.aggregations
      ∧ r.audits = formatAudits rs
      ∧ Event.aggregateCall ["perf"] rs
          ∈ (Runner.run sampleWorld "session" modeCOpts []).events :=
  (C5_report_shape sampleWorld "session" modeCOpts []).2 ["perf"] rfl _ (by rfl)


theorem aggregationStep_result_prev_error_any (w : World) (c : Config) (o : Opts)
    (s : StepOut (List AuditResult)) (e : String) (hr : s.result = .error e) :
    (aggregationStep w c o s).2 = .error (.thrown e) := by
  cases hag : c.aggregations with
  | none =>
    rw [aggregationStep_none w c o s hag]
    simp [hr]
  | some specs => rw [aggregationStep_some_prev_error w c o s specs e hag hr]

theorem aggregationStep_events_prev_error_any (w : World) (c : Config) (o : Opts)
    (s : StepOut (List AuditResult)) (e : String) (hr : s.result = .error e) :
    (aggregationStep w c o s).1 = s.events := by
  cases hag : c.aggregations with
  | none => rw [aggregationStep_none w c o s hag]
  | some specs => rw [aggregationStep_some_prev_error w c o s specs e hag hr]

theorem abChain_saveArtifacts_error (w : World) (d : Driver) (opts : Opts) (flags : Flags)
    (sched : List Nat) (a : Artifacts) (e : String)
    (hart : resolvedArtifacts w d opts = .ok a)
    (hsa : flags.saveArtifacts = true)
    (herr : w.saveArtifactsFn a = .error e) :
    (abChain w d opts flags sched).result = .error e
    ∧ (abChain w d opts flags sched).events =
        (artifactsStep w opts.config (mutatedOpts d opts)
          (opts.config.passes.isSome && opts.config.audits.isSome)).events
        ++ (saveArtifactsStep w flags a).events := by
  unfold abChain
  have h1 : (artifactsStep w opts.config (mutatedOpts d opts)
      (opts.config.passes.isSome && opts.config.audits.isSome)).result = .ok a := hart
  have h2 : ((artifactsStep w opts.config (mutatedOpts d opts)
      (opts.config.passes.isSome && opts.config.audits.isSome)).andThen
      (saveArtifactsStep w flags)).result = .error e := by
    rw [andThen_result_ok _ _ a h1]
    exact saveArtifactsStep_result_error w flags a e hsa herr
  have h3 : (((artifactsStep w opts.config (mutatedOpts d opts)
      (opts.config.passes.isSome && opts.config.audits.isSome)).andThen
      (saveArtifactsStep w flags)).andThen
      (saveAssetsStep w flags (mutatedOpts d opts))).result = .error e :=
    andThen_result_error _ _ e h2
  refine ⟨andThen_result_error _ _ e h3, ?_⟩
  rw [andThen_events_error _ _ e h3, andThen_events_error _ _ e h2,
    andThen_events_ok _ _ a h1]

theorem abChain_saveAssets_error (w : World) (d : Driver) (opts : Opts) (flags : Flags)
    (sched : List Nat) (a : Artifacts) (e : String)
    (hart : resolvedArtifacts w d opts = .ok a)
    (hpa : flags.saveArtifacts = true → w.saveArtifactsFn a = .ok ())
    (hsas : flags.saveAssets = true)
    (herr : w.saveAssetsFn (mutatedOpts d opts) a = .error e) :
    (abChain w d opts flags sched).result = .error e
    ∧ (abChain w d opts flags sched).events =
        (artifactsStep w opts.config (mutatedOpts d opts)
          (opts.config.passes.isSome && opts.config.audits.isSome)).events
        ++ (saveArtifactsStep w flags a).events
        ++ (saveAssetsStep w flags (mutatedOpts d opts) a).events := by
  unfold abChain
  have h1 : (artifactsStep w opts.config (mutatedOpts d opts)
      (opts.config.passes.isSome && opts.config.audits.isSome)).result = .ok a := hart
  have h2 : ((artifactsStep w opts.config (mutatedOpts d opts)
      (opts.config.passes.isSome && opts.config.audits.isSome)).andThen
      (saveArtifactsStep w flags)).result = .ok a := by
    rw [andThen_result_ok _ _ a h1]
    exact saveArtifactsStep_result_of_ok w flags a hpa
  have h3 : (((artifactsStep w opts.config (mutatedOpts d opts)
      (opts.config.passes.isSome && opts.config.audits.isSome)).andThen
      (saveArtifactsStep w flags)).andThen
      (saveAssetsStep w flags (mutatedOpts d opts))).result = .error e := by
    rw [andThen_result_ok _ _ a h2]
    exact saveAssetsStep_result_error w flags (mutatedOpts d opts) a e hsas herr
  refine ⟨andThen_result_error _ _ e h3, ?_⟩
  rw [andThen_events_error _ _ e h3, andThen_events_ok _ _ a h2,
    andThen_events_ok _ _ a h1]

/-- C6: in a mode A/B run with `flags.saveArtifacts` or
`flags.saveAssets` set, the corresponding persistence collaborator call
completes before the audit phase and its return value is discarded: on
success each enabled persistence call receives exactly the artifacts
object later passed to every audit, and a failure of either persistence
call propagates and aborts the run before any audit executes. -/
theorem C6_persistence_awaited
    (w : World) (d : Driver) (opts : Opts) (sched : List Nat) (a : Artifacts)
    (auds : List AuditDescriptor) (flags : Flags)
    (hmode : (opts.config.passes.isSome || opts.config.artifacts.isSome) = true)
    (ha : opts.config.audits = some auds)
    (hf : opts.flags = some flags)
    (hart : resolvedArtifacts w d opts = .ok a) :
    ((flags.saveArtifacts = true → w.saveArtifactsFn a = .ok ()) →
      (flags.saveAssets = true → w.saveAssetsFn (mutatedOpts d opts) a = .ok ()) →
      persistArtifactsCalls (Runner.run w d opts sched).events
        = (if flags.saveArtifacts then [a] else [])
      ∧ persistAssetsCalls (Runner.run w d opts sched).events
        = (if flags.saveAssets then [a] else [])
      ∧ auditCallArgs (Runner.run w d opts sched).events
          = auds.map (fun dd => (dd.meta.description, a)))
    ∧ (∀ e, flags.saveArtifacts = true → w.saveArtifactsFn a = .error e →
      (Runner.run w d opts sched).result = .error (.thrown e)
      ∧ auditCallArgs (Runner.run w d opts sched).events = [])
    ∧ (∀ e, (flags.saveArtifacts = true → w.saveArtifactsFn a = .ok ()) →
      flags.saveAssets = true → w.saveAssetsFn (mutatedOpts d opts) a = .error e →
      (Runner.run w d opts sched).result = .error (.thrown e)
      ∧ auditCallArgs (Runner.run w d opts sched).events = []) := by
  have hAB : (opts.config.passes.isSome && opts.config.audits.isSome
      || opts.config.artifacts.isSome && opts.config.audits.isSome) = true := by
    rw [ha]
    simp only [Option.isSome_some, Bool.and_true]
    exact hmode
  refine ⟨?_, ?_, ?_⟩
  · intro hpa hps
    refine ⟨?_, ?_, ?_⟩
    · rw [run_AB_flags w d opts sched flags hAB hf]
      simp only [persistArtifactsCalls_append, persistArtifactsCalls_urlWarnings,
        List.nil_append, persistArtifactsCalls_aggregationStep,
        abChain_events_ok w d opts flags sched a hart hpa hps,
        persistArtifactsCalls_artifactsStep, persistArtifactsCalls_saveArtifactsStep,
        persistArtifactsCalls_saveAssetsStep, persistArtifactsCalls_auditsStep,
        List.nil_append, List.append_nil]
    · rw [run_AB_flags w d opts sched flags hAB hf]
      simp only [persistAssetsCalls_append, persistAssetsCalls_urlWarnings,
        List.nil_append, persistAssetsCalls_aggregationStep,
        abChain_events_ok w d opts flags sched a hart hpa hps,
        persistAssetsCalls_artifactsStep, persistAssetsCalls_saveArtifactsStep,
        persistAssetsCalls_saveAssetsStep, persistAssetsCalls_auditsStep,
        List.nil_append, List.append_nil]
    · rw [run_AB_flags w d opts sched flags hAB hf]
      simp only [auditCallArgs_append, auditCallArgs_urlWarnings, List.nil_append,
        auditCallArgs_aggregationStep,
        abChain_events_ok w d opts flags sched a hart hpa hps,
        auditCallArgs_artifactsStep, auditCallArgs_saveArtifactsStep,
        auditCallArgs_saveAssetsStep, auditCallArgs_auditsStep, ha, Option.getD_some,
        List.nil_append, List.append_nil]
  · intro e hsa herr
    obtain ⟨hcr, hce⟩ := abChain_saveArtifacts_error w d opts flags sched a e hart hsa herr
    constructor
    · rw [run_AB_flags w d opts sched flags hAB hf]
      exact aggregationStep_result_prev_error_any w opts.config (mutatedOpts d opts) _ e hcr
    · rw [run_AB_flags w d opts sched flags hAB hf]
      simp only [auditCallArgs_append, auditCallArgs_urlWarnings, List.nil_append]
      rw [aggregationStep_events_prev_error_any w opts.config (mutatedOpts d opts) _ e hcr,
        hce]
      simp only [auditCallArgs_append, auditCallArgs_artifactsStep,
        auditCallArgs_saveArtifactsStep, List.append_nil]
  · intro e hpa hsas herr
    obtain ⟨hcr, hce⟩ :=
      abChain_saveAssets_error w d opts flags sched a e hart hpa hsas herr
    constructor
    · rw [run_AB_flags w d opts sched flags hAB hf]
      exact aggregationStep_result_prev_error_any w opts.config (mutatedOpts d opts) _ e hcr
    · rw [run_AB_flags w d opts sched flags hAB hf]
      simp only [auditCallArgs_append, auditCallArgs_urlWarnings, List.nil_append]
      rw [aggregationStep_events_prev_error_any w opts.config (mutatedOpts d opts) _ e hcr,
        hce]
      simp only [auditCallArgs_append, auditCallArgs_artifactsStep,
        auditCallArgs_saveArtifactsStep, auditCallArgs_saveAssetsStep, List.append_nil]

/-- Witness for C6 at a concrete mode B run persisting both artifacts
and assets: both persistence calls and the audit receive the same
artifacts object. -/
theorem C6_persistence_awaited_witness :
    persistArtifactsCalls (Runner.run sampleWorld "session" saveOpts []).events = [[("k", "v")]]
    ∧ persistAssetsCalls (Runner.run sampleWorld "session" saveOpts []).events = [[("k", "v")]]
    ∧ auditCallArgs (Runner.run sampleWorld "session" saveOpts []).events
        = [("only", [("k", "v")])] := by
  have T := C6_persistence_awaited sampleWorld "session" saveOpts [] [("k", "v")]
    (saveOpts.config.audits.getD []) { saveArtifacts := true, saveAssets := true }
    rfl rfl rfl rfl
  obtain ⟨h1, h2, h3⟩ := T.1 (fun _ => rfl) (fun _ => rfl)
  exact ⟨h1, h2, h3⟩


/-- C7: in a mode A/B run that reaches the audit phase, if any single
configured audit invocation rejects while every other audit resolves,
the whole concurrent batch and hence the entire run rejects with that
same error, for every completion order covering the batch — no audit
failure is silently swallowed. -/
theorem C7_audit_failure_rejects
    (w : World) (d : Driver) (opts : Opts) (sched : List Nat) (a : Artifacts)
    (auds : List AuditDescriptor) (flags : Flags) (i : Nat) (dd : AuditDescriptor)
    (e : String)
    (hmode : (opts.config.passes.isSome || opts.config.artifacts.isSome) = true)
    (ha : opts.config.audits = some auds)
    (hf : opts.flags = some flags)
    (hart : resolvedArtifacts w d opts = .ok a)
    (hpa : flags.saveArtifacts = true → w.saveArtifactsFn a = .ok ())
    (hps : flags.saveAssets = true → w.saveAssetsFn (mutatedOpts d opts) a = .ok ())
    (hi : auds[i]? = some dd)
    (hie : dd.audit a = .error e)
    (hothers : ∀ (j : Nat) (dj : AuditDescriptor), j ≠ i → auds[j]? = some dj →
      ∃ r, dj.audit a = .ok r)
    (hperm : sched.Perm (List.range auds.length)) :
    (Runner.run w d opts sched).result = .error (.thrown e) := by
  have hAB : (opts.config.passes.isSome && opts.config.audits.isSome
      || opts.config.artifacts.isSome && opts.config.audits.isSome) = true := by
    rw [ha]
    simp only [Option.isSome_some, Bool.and_true]
    exact hmode
  have htask : (auds.map (fun dd => dd.audit a))[i]? = some (.error e) := by
    rw [List.getElem?_map, hi]
    simp [hie]
  have hother' : ∀ (j : Nat) (r : Except String AuditResult),
      (auds.map (fun dd => dd.audit a))[j]? = some r → r = .error e ∨ ∃ x, r = .ok x := by
    intro j r hj
    rw [List.getElem?_map] at hj
    cases hjd : auds[j]? with
    | none =>
      rw [hjd] at hj
      simp at hj
    | some dj =>
      rw [hjd] at hj
      simp only [Option.map_some'] at hj
      replace hj := Option.some.inj hj
      by_cases hji : j = i
      · left
        subst hji
        have hdd : dd = dj := Option.some.inj (hi.symm.trans hjd)
        rw [← hj, ← hdd, hie]
      · right
        rcases hothers j dj hji hjd with ⟨x, hx⟩
        exact ⟨x, by rw [← hj, hx]⟩
  have hperm' : sched.Perm (List.range (auds.map (fun dd => dd.audit a)).length) := by
    rw [List.length_map]
    exact hperm
  have hchain : (abChain w d opts flags sched).result = .error e := by
    rw [abChain_result_ok w d opts flags sched a hart hpa hps, ha]
    simp only [Option.getD_some]
    exact promiseAllAudits_single_error _ sched i e htask hother' hperm'
  rw [run_AB_flags w d opts sched flags hAB hf]
  exact aggregationStep_result_prev_error_any w opts.config (mutatedOpts d opts) _ e hchain

/-- Witness for C7: a concrete batch whose second audit rejects, under
the completion order that finishes the second audit first. -/
theorem C7_audit_failure_rejects_witness :
    (Runner.run sampleWorld "session" failOpts [1, 0]).result = .error (.thrown "boom") :=
  C7_audit_failure_rejects sampleWorld "session" failOpts [1, 0] [("k", "v")]
    (failOpts.config.audits.getD []) {} 1
    { meta := { description := "bad" }, audit := fun _ => .error "boom" } "boom"
    rfl rfl rfl rfl (fun h => by cases h) (fun h => by cases h)
    rfl rfl
    (by
      intro j dj hj hjd
      match j, hjd with
      | 0, hjd =>
        cases hjd
        exact ⟨{ name := "good", value := "ok" }, rfl⟩
      | 1, hjd => exact absurd rfl hj
      | n + 2, hjd => simp [failOpts] at hjd)
    (by decide)


/-- The run returns the mutated options object on every branch. -/
theorem run_opts (w : World) (d : Driver) (opts : Opts) (sched : List Nat) :
    (Runner.run w d opts sched).opts = mutatedOpts d opts := by
  unfold Runner.run
  rcases hp : opts.config.passes with _ | ps <;>
  rcases ha : opts.config.audits with _ | auds <;>
  rcases hart : opts.config.artifacts with _ | arts <;>
  rcases hres : opts.config.auditResults with _ | rs <;>
  rcases hf : opts.flags with _ | flags <;>
  simp [hp, ha, hart, hres, hf, mutatedOpts_flags]

/-- C8: the caller-supplied URL is recorded verbatim as `initialUrl`
while the run-wide `url` becomes the library-canonicalized
re-serialization; with URL "http://example.com" exactly two insecure
warnings are emitted and the run is not aborted by them, and with
"https://example.com/" no warnings are emitted. -/
theorem C8_url_normalization
    (w : World) (d : Driver) (opts : Opts) (sched : List Nat) :
    (Runner.run w d opts sched).opts.initialUrl = some opts.url
    ∧ (Runner.run w d opts sched).opts.url = urlFormat (urlParse opts.url)
    ∧ (opts.url = "http://example.com" →
        warnCount (Runner.run w d opts sched).events = 2)
    ∧ (opts.url = "https://example.com/" →
        warnCount (Runner.run w d opts sched).events = 0)
    ∧ (∀ rs, opts.url = "http://example.com" →
        opts.config = { auditResults := some rs } →
        (Runner.run w d opts sched).result = .ok (.flat rs)) := by
  refine ⟨by rw [run_opts, mutatedOpts_initialUrl], by rw [run_opts, mutatedOpts_url],
    ?_, ?_, ?_⟩
  · intro h
    rw [warnCount_run, h]
    rfl
  · intro h
    rw [warnCount_run, h]
    rfl
  · intro rs hurl hcfg
    have hA : (opts.config.passes.isSome && opts.config.audits.isSome) = false := by
      simp [hcfg]
    have hB : (opts.config.artifacts.isSome && opts.config.audits.isSome) = false := by
      simp [hcfg]
    have hres : opts.config.auditResults = some rs := by
      simp [hcfg]
    rw [run_modeC w d opts sched rs hA hB hres,
      aggregationStep_none w opts.config (mutatedOpts d opts) _ (by rw [hcfg])]

/-- Witness for C8: the insecure URL yields exactly two warnings and
still a successful run; the secure URL yields none. -/
theorem C8_url_normalization_witness :
    warnCount (Runner.run sampleWorld "session" httpOpts []).events = 2
    ∧ (Runner.run sampleWorld "session" httpOpts []).result
        = .ok (.flat [{ name := "n", value := "v" }])
    ∧ warnCount (Runner.run sampleWorld "session" modeCOpts []).events = 0 :=
  ⟨(C8_url_normalization sampleWorld "session" httpOpts []).2.2.1 rfl,
   (C8_url_normalization sampleWorld "session" httpOpts []).2.2.2.2 _ rfl rfl,
   (C8_url_normalization sampleWorld "session" modeCOpts []).2.2.2.1 rfl⟩

/-- C9, counterexample: run mutates the caller-supplied options object
— after a run with URL "http://example.com" the options object has its
`url` field overwritten with the canonicalized form and its
`initialUrl` field newly set. -/
theorem C9_opts_mutation_counterexample :
    (Runner.run sampleWorld "session" httpOpts []).opts.url ≠ httpOpts.url
    ∧ (Runner.run sampleWorld "session" httpOpts []).opts.initialUrl
        ≠ httpOpts.initialUrl := by
  constructor
  · decide
  · decide

/-- C9, amended: run treats the request config and flags as read-only
but mutates the options object itself: it records the original URL in
`initialUrl`, overwrites `url` with the canonicalized form, and on the
passes-and-audits path sets `driver`; the `config` and `flags` fields
are unchanged. -/
theorem C9_amended_opts_mutation
    (w : World) (d : Driver) (opts : Opts) (sched : List Nat) :
    (Runner.run w d opts sched).opts =
      { opts with
        initialUrl := some opts.url
        url := urlFormat (urlParse opts.url)
        driver := if opts.config.passes.isSome && opts.config.audits.isSome
          then some d else opts.driver }
    ∧ (Runner.run w d opts sched).opts.config = opts.config
    ∧ (Runner.run w d opts sched).opts.flags = opts.flags := by
  refine ⟨?_, by rw [run_opts, mutatedOpts_config], by rw [run_opts, mutatedOpts_flags]⟩
  rw [run_opts]
  unfold mutatedOpts
  cases hc : (opts.config.passes.isSome && opts.config.audits.isSome) <;> simp [hc]

theorem aggregationStep_result_congr (w : World) (c : Config) (o1 o2 : Opts)
    (s : StepOut (List AuditResult))
    (h1 : o1.initialUrl = o2.initialUrl) (h2 : o1.url = o2.url) :
    (aggregationStep w c o1 s).2 = (aggregationStep w c o2 s).2 := by
  unfold aggregationStep
  rcases c.aggregations with _ | specs
  · rfl
  · rcases hr : s.result with e | rs
    · simp [hr]
    · cases hagg : w.aggregate specs rs <;> simp [hr, hagg, h1, h2]

/-- C10: in mode A/B the flags object is dereferenced synchronously
while the chain is built, so a call without `opts.flags` fails with a
TypeError and no audit ever executes; in mode C the flags object is
never read, and the run result is identical with or without one. -/
theorem C10_flags_dereference
    (w : World) (d : Driver) (opts : Opts) (sched : List Nat) :
    ((opts.config.passes.isSome && opts.config.audits.isSome
        || opts.config.artifacts.isSome && opts.config.audits.isSome) = true →
      opts.flags = none →
      (Runner.run w d opts sched).result
        = .error (.typeError "Cannot read property saveArtifacts of undefined")
      ∧ auditCallArgs (Runner.run w d opts sched).events = [])
    ∧ ((opts.config.passes.isSome && opts.config.audits.isSome) = false →
      (opts.config.artifacts.isSome && opts.config.audits.isSome) = false →
      ∀ rs, opts.config.auditResults = some rs →
      ∀ f, (Runner.run w d { opts with flags := none } sched).result
          = (Runner.run w d { opts with flags := some f } sched).result) := by
  constructor
  · intro hmode hf
    rw [run_AB_noFlags w d opts sched hmode hf]
    refine ⟨rfl, ?_⟩
    simp only [auditCallArgs_append, auditCallArgs_urlWarnings, List.nil_append,
      auditCallArgs_artifactsStep]
  · intro hA hB rs hres f
    rw [run_modeC w d { opts with flags := none } sched rs hA hB hres,
      run_modeC w d { opts with flags := some f } sched rs hA hB hres]
    exact aggregationStep_result_congr w opts.config _ _ _
      (by simp only [mutatedOpts_initialUrl])
      (by simp only [mutatedOpts_url])

/-- Witness for C10: without a flags object a mode B call fails with
the TypeError and performs no audit call, while a mode C call is
unaffected by the presence of a flags object. -/
theorem C10_flags_dereference_witness :
    ((Runner.run sampleWorld "session" noFlagsOpts []).result
        = .error (.typeError "Cannot read property saveArtifacts of undefined")
      ∧ auditCallArgs (Runner.run sampleWorld "session" noFlagsOpts []).events = [])
    ∧ (Runner.run sampleWorld "session" { modeCOpts with flags := none } []).result
        = (Runner.run sampleWorld "session" { modeCOpts with flags := some {} } []).result :=
  ⟨(C10_flags_dereference sampleWorld "session" noFlagsOpts []).1 rfl rfl,
   (C10_flags_dereference sampleWorld "session" modeCOpts []).2 rfl rfl
     [{ name := "speed", value := "fast" }] rfl {}⟩

end Lighthouse
